import Mathlib

/-!
# Verification of the `declinecurve` engine (packages/engine/src)

Shallow embedding of the Arps decline-curve engine:
`decline.ts` (fitExponential, fitHyperbolic, selectBestFit, predictRate),
`forecast.ts` (generateForecast), `parser.ts` (parseProductionData) and
`export.ts` (exportResultsCsv).

Modelling conventions:
* JavaScript `number` is modelled by `ℚ`.  The transcendental library
  functions `Math.exp`, `Math.log`, `Math.pow` have no exact rational
  counterpart, so every engine function is parametrised by a `JsMath`
  structure carrying those three functions; theorems quantify over it,
  and concrete witness runs instantiate it with simple rational stand-ins.
* The JS value `Infinity` occurring in the `eur` field is modelled by
  `⊤ : WithTop ℚ` (all other `eur` values produced by the code are finite).
* `throw new Error(...)` is modelled by `Except EngineError`; the three
  distinct error messages of the engine become the three constructors.
* JS `a[i]` reads beyond an array's end yield `undefined`, which fails the
  `rates[i] > 0` test, so the index-parallel traversal of `time`/`rates`
  is modelled with `List.zip` (truncating to the shorter list).
-/

/-- The three JS `Math` functions used by the engine (`Math.exp`,
`Math.log`, `Math.pow`), abstracted as rational-valued stand-ins. -/
structure JsMath where
  exp : ℚ → ℚ
  log : ℚ → ℚ
  pow : ℚ → ℚ → ℚ

/-- `DeclineModel` of decline.ts: tagged union of the two model shapes.
The exponential variant's `b` field is the literal `0`. -/
inductive DeclineModel where
  | exponential (qi Di : ℚ)
  | hyperbolic (qi Di b : ℚ)
deriving DecidableEq, Repr

namespace DeclineModel

/-- Field access `m.qi`. -/
def qi : DeclineModel → ℚ
  | exponential qi _ => qi
  | hyperbolic qi _ _ => qi

/-- Field access `m.Di`. -/
def Di : DeclineModel → ℚ
  | exponential _ Di => Di
  | hyperbolic _ Di _ => Di

/-- Field access `m.b` (the exponential variant has `b: 0`). -/
def b : DeclineModel → ℚ
  | exponential _ _ => 0
  | hyperbolic _ _ b => b

/-- The `type` tag string of the model. -/
def typeStr : DeclineModel → String
  | exponential _ _ => "exponential"
  | hyperbolic _ _ _ => "hyperbolic"

end DeclineModel

/-- `FitResult` of decline.ts.  `eur` is a JS number that can be
`Infinity` (when the decline rate is non-positive), hence `WithTop ℚ`. -/
structure FitResult where
  model : DeclineModel
  rSquared : ℚ
  aic : ℚ
  eur : WithTop ℚ
deriving DecidableEq

/-- The three `throw new Error(...)` sites of the engine:
`'Need at least <n> positive data points ...'`, `'Degenerate data for
exponential fit'` and the parser's `'No valid production records found'`. -/
inductive EngineError where
  | insufficientData (needed : Nat)
  | degenerateData
  | noValidRecords
deriving DecidableEq, Repr

/-- `reduce((s, v) => s + v, 0)` of decline.ts. -/
def listSum (l : List ℚ) : ℚ := l.foldl (· + ·) 0

/-- `predictRate` of decline.ts. -/
def predictRate (M : JsMath) (model : DeclineModel) (t : ℚ) : ℚ :=
  match model with
  | .exponential qi Di => qi * M.exp (-Di * t)
  | .hyperbolic qi Di b =>
    let denom := 1 + b * Di * t
    if denom ≤ 0 then 0 else qi / M.pow denom (1 / b)

/-- The `valid` accumulator of `fitExponential`/`fitHyperbolic`: the
(time, rate) pairs whose rate is strictly positive, in input order. -/
def validPairs (time rates : List ℚ) : List (ℚ × ℚ) :=
  (time.zip rates).filter fun p => 0 < p.2

/-- `computeRSquared` of decline.ts. -/
def computeRSquared (M : JsMath) (time rates : List ℚ) (model : DeclineModel) : ℚ :=
  let mean := listSum rates / (rates.length : ℚ)
  let pairs := time.zip rates
  let ssRes := listSum (pairs.map fun p => (p.2 - predictRate M model p.1) ^ 2)
  let ssTot := listSum (pairs.map fun p => (p.2 - mean) ^ 2)
  if ssTot = 0 then 1 else 1 - ssRes / ssTot

/-- `computeAIC` of decline.ts: `n*ln(SSE/n + 1e-15) + 2k`. -/
def computeAIC (M : JsMath) (time rates : List ℚ) (model : DeclineModel) (k : Nat) : ℚ :=
  let n := time.length
  let sse := listSum ((time.zip rates).map fun p => (p.2 - predictRate M model p.1) ^ 2)
  (n : ℚ) * M.log (sse / (n : ℚ) + 1 / 10 ^ 15) + 2 * (k : ℚ)

/-- The regression denominator `n*Σt² - (Σt)²` of `fitExponential`,
computed over the filtered positive-rate pairs. -/
def regDenom (valid : List (ℚ × ℚ)) : ℚ :=
  let ts := valid.map Prod.fst
  (valid.length : ℚ) * listSum (ts.map fun v => v * v) - listSum ts * listSum ts

/-- The successful tail of `fitExponential` (after both guards). -/
def expFitResult (M : JsMath) (valid : List (ℚ × ℚ)) : FitResult :=
  let ts := valid.map Prod.fst
  let qs := valid.map Prod.snd
  let lnqs := qs.map M.log
  let n := valid.length
  let sumT := listSum ts
  let sumLnq := listSum lnqs
  let sumTLnq := listSum (List.zipWith (· * ·) ts lnqs)
  let denom := regDenom valid
  let slope := ((n : ℚ) * sumTLnq - sumT * sumLnq) / denom
  let intercept := (sumLnq - slope * sumT) / (n : ℚ)
  let qi := M.exp intercept
  let Di := -slope
  let model : DeclineModel := .exponential qi Di
  { model := model
    rSquared := computeRSquared M ts qs model
    aic := computeAIC M ts qs model 2
    eur := if 0 < Di then ((qi / Di : ℚ) : WithTop ℚ) else ⊤ }

/-- `fitExponential` of decline.ts: log-linear regression; throws on
fewer than 2 positive points and on `|n*Σt² - (Σt)²| < 1e-15`. -/
def fitExponential (M : JsMath) (time rates : List ℚ) : Except EngineError FitResult :=
  if (validPairs time rates).length < 2 then .error (.insufficientData 2)
  else if |regDenom (validPairs time rates)| < 1 / 10 ^ 15 then .error .degenerateData
  else .ok (expFitResult M (validPairs time rates))

/-! ## Hyperbolic fitter (Levenberg-Marquardt), decline.ts lines 83-172 -/

/-- A 3×3 matrix as three rows of three rationals. -/
abbrev Mat3 := (ℚ × ℚ × ℚ) × (ℚ × ℚ × ℚ) × (ℚ × ℚ × ℚ)

/-- `computeJacobianAndResiduals` of decline.ts: per valid point the row
`(∂q/∂qi, ∂q/∂Di, ∂q/∂b)` (the `b`-partial by forward difference with
step `1e-6`) and the residual `q - pred`. -/
def computeJacobianAndResiduals (M : JsMath) (t q : List ℚ) (qi Di b : ℚ) :
    List (ℚ × ℚ × ℚ) × List ℚ :=
  let rows := List.zipWith
    (fun ti qv =>
      let base := 1 + b * Di * ti
      let invB := 1 / b
      let pred := qi / M.pow base invB
      let dqi := 1 / M.pow base invB
      let dDi := (-qi * ti) / M.pow base (invB + 1)
      let eps : ℚ := 1 / 10 ^ 6
      let bPlus := b + eps
      let predPlus := qi / M.pow (1 + bPlus * Di * ti) (1 / bPlus)
      let db := (predPlus - pred) / eps
      ((dqi, dDi, db), qv - pred))
    t q
  (rows.map Prod.fst, rows.map Prod.snd)

/-- `matMul3x3T` of decline.ts: `JᵀJ` for a Jacobian with rows `J k`. -/
def matMul3x3T (J : List (ℚ × ℚ × ℚ)) : Mat3 :=
  let ip := fun (f g : ℚ × ℚ × ℚ → ℚ) => listSum (J.map fun r => f r * g r)
  let c0 := fun (r : ℚ × ℚ × ℚ) => r.1
  let c1 := fun (r : ℚ × ℚ × ℚ) => r.2.1
  let c2 := fun (r : ℚ × ℚ × ℚ) => r.2.2
  ((ip c0 c0, ip c0 c1, ip c0 c2),
   (ip c1 c0, ip c1 c1, ip c1 c2),
   (ip c2 c0, ip c2 c1, ip c2 c2))

/-- `matVecMul3T` of decline.ts: `Jᵀr`. -/
def matVecMul3T (J : List (ℚ × ℚ × ℚ)) (r : List ℚ) : ℚ × ℚ × ℚ :=
  let ip := fun (f : ℚ × ℚ × ℚ → ℚ) =>
    listSum (List.zipWith (fun row rv => f row * rv) J r)
  (ip (fun row => row.1), ip (fun row => row.2.1), ip (fun row => row.2.2))

/-- `solve3x3` of decline.ts: Gaussian elimination with partial pivoting
(scanning down with strict `>`, so the first maximal pivot is chosen);
returns `none` when a pivot has `|·| < 1e-15`. -/
def solve3x3 (A : Mat3) (rhs : ℚ × ℚ × ℚ) : Option (ℚ × ℚ × ℚ) :=
  let tiny : ℚ := 1 / 10 ^ 15
  let (r0, r1, r2) := A
  let (b0, b1, b2) := rhs
  -- column 0: pick the row (0,1,2) with the largest |entry| in column 0
  let m01 : Bool := |r1.1| > |r0.1|
  let pick2 : Bool := |r2.1| > (if m01 then |r1.1| else |r0.1|)
  let (s0, s1, s2, c0, c1, c2) :=
    if pick2 then (r2, r1, r0, b2, b1, b0)
    else if m01 then (r1, r0, r2, b1, b0, b2)
    else (r0, r1, r2, b0, b1, b2)
  if |s0.1| < tiny then none else
  -- eliminate column 0 from rows 1 and 2
  let f1 := s1.1 / s0.1
  let t1 : ℚ × ℚ × ℚ := (s1.1 - f1 * s0.1, s1.2.1 - f1 * s0.2.1, s1.2.2 - f1 * s0.2.2)
  let d1 := c1 - f1 * c0
  let f2 := s2.1 / s0.1
  let t2 : ℚ × ℚ × ℚ := (s2.1 - f2 * s0.1, s2.2.1 - f2 * s0.2.1, s2.2.2 - f2 * s0.2.2)
  let d2 := c2 - f2 * c0
  -- column 1: pivot among rows 1 and 2
  let m12 : Bool := |t2.2.1| > |t1.2.1|
  let (u1, u2, e1, e2) := if m12 then (t2, t1, d2, d1) else (t1, t2, d1, d2)
  if |u1.2.1| < tiny then none else
  let g2 := u2.2.1 / u1.2.1
  let v2 : ℚ × ℚ × ℚ := (u2.1, u2.2.1 - g2 * u1.2.1, u2.2.2 - g2 * u1.2.2)
  let h2 := e2 - g2 * e1
  -- column 2 pivot check, then back-substitution
  if |v2.2.2| < tiny then none else
  let x2 := h2 / v2.2.2
  let x1 := (e1 - u1.2.2 * x2) / u1.2.1
  let x0 := (c0 - s0.2.1 * x1 - s0.2.2 * x2) / s0.1
  some (x0, x1, x2)

/-- Sum of squared entries (`reduce((s, r) => s + r*r, 0)`). -/
def sumSq (l : List ℚ) : ℚ := listSum (l.map fun r => r * r)

/-- Build the damped system `(JᵀJ + λI)δ = Jᵀr` of one LM iteration and
solve it (`delta` of decline.ts; `none` when the solver bails out). -/
def lmDelta (M : JsMath) (t q : List ℚ) (lam : ℚ) (p : ℚ × ℚ × ℚ) :
    Option (ℚ × ℚ × ℚ) :=
  let Jr := computeJacobianAndResiduals M t q p.1 p.2.1 p.2.2
  let JtJ := matMul3x3T Jr.1
  let Jtr := matVecMul3T Jr.1 Jr.2
  solve3x3
    ((JtJ.1.1 + lam, JtJ.1.2.1, JtJ.1.2.2),
     (JtJ.2.1.1, JtJ.2.1.2.1 + lam, JtJ.2.1.2.2),
     (JtJ.2.2.1, JtJ.2.2.2.1, JtJ.2.2.2.2 + lam)) Jtr

/-- The parameter clamps of the LM iteration:
`qi ≥ 1`, `Di ≥ 1e-6`, `b ∈ [0.01, 0.99]`. -/
def lmClamp (p d : ℚ × ℚ × ℚ) : ℚ × ℚ × ℚ :=
  (max (p.1 + d.1) 1, max (p.2.1 + d.2.1) (1 / 10 ^ 6),
   max (1 / 100) (min (99 / 100) (p.2.2 + d.2.2)))

/-- Sum of squared residuals of the hyperbolic model at parameters `p`
(`oldSSE`/`newSSE` of the LM iteration: the residual formula
`q - qi / (1 + b*Di*t)^(1/b)` is the same at both uses). -/
def lmSSE (M : JsMath) (t q : List ℚ) (p : ℚ × ℚ × ℚ) : ℚ :=
  sumSq (List.zipWith
    (fun ti qv => qv - p.1 / M.pow (1 + p.2.2 * p.2.1 * ti) (1 / p.2.2)) t q)

/-- One run of the Levenberg-Marquardt `for` loop of `fitHyperbolic`
(decline.ts lines 112-154), with the remaining iteration count as fuel.
State is `p = (qi, Di, b)`; `lam` is the damping factor `lambda`. -/
def lmLoop (M : JsMath) (t q : List ℚ) :
    Nat → ℚ → ℚ × ℚ × ℚ → ℚ × ℚ × ℚ
  | 0, _, p => p
  | fuel + 1, lam, p =>
    match lmDelta M t q lam p with
    | none => p
    | some d =>
      if lmSSE M t q (lmClamp p d) < lmSSE M t q p then
        if (lmSSE M t q p - lmSSE M t q (lmClamp p d)) / (lmSSE M t q p + 1 / 10 ^ 15)
            < 1 / 10 ^ 10 then lmClamp p d
        else lmLoop M t q fuel (lam / 2) (lmClamp p d)
      else lmLoop M t q fuel (lam * 5) p

/-- Statistics and EUR assembly of `fitHyperbolic` from the final LM
parameters `p = (qi, Di, b)`: the closed-form EUR with economic limit
`qf = 1` when `b < 1 && Di > 0`, else Infinity. -/
def hypAssemble (M : JsMath) (valid : List (ℚ × ℚ)) (p : ℚ × ℚ × ℚ) : FitResult :=
  { model := .hyperbolic p.1 p.2.1 p.2.2
    rSquared := computeRSquared M (valid.map Prod.fst) (valid.map Prod.snd)
      (.hyperbolic p.1 p.2.1 p.2.2)
    aic := computeAIC M (valid.map Prod.fst) (valid.map Prod.snd)
      (.hyperbolic p.1 p.2.1 p.2.2) 3
    eur :=
      if p.2.2 < 1 ∧ 0 < p.2.1 then
        ((M.pow p.1 p.2.2 / ((1 - p.2.2) * p.2.1) *
          (M.pow p.1 (1 - p.2.2) - M.pow 1 (1 - p.2.2)) : ℚ) : WithTop ℚ)
      else ⊤ }

/-- The successful tail of `fitHyperbolic`: seed from the exponential
fit (`Di` clamped to at least `0.001`, `b = 0.5`), 200 LM iterations with
initial `lambda = 0.01`, then statistics and EUR. -/
def hypFitResult (M : JsMath) (valid : List (ℚ × ℚ)) (expFit : FitResult) : FitResult :=
  hypAssemble M valid
    (lmLoop M (valid.map Prod.fst) (valid.map Prod.snd) 200 (1 / 100)
      (expFit.model.qi, max expFit.model.Di (1 / 1000), 1 / 2))

/-- `fitHyperbolic` of decline.ts: throws on fewer than 3 positive
points, then seeds from `fitExponential` (whose errors propagate). -/
def fitHyperbolic (M : JsMath) (time rates : List ℚ) : Except EngineError FitResult :=
  if (validPairs time rates).length < 3 then .error (.insufficientData 3)
  else (fitExponential M time rates).map (hypFitResult M (validPairs time rates))

/-- Result record of `selectBestFit`. -/
structure SelectResult where
  best : FitResult
  all : List FitResult
deriving DecidableEq

/-- `selectBestFit` of decline.ts: run both fitters; prefer the
hyperbolic fit only when its R² beats the exponential one by more
than `0.005`. -/
def selectBestFit (M : JsMath) (time rates : List ℚ) : Except EngineError SelectResult := do
  let expFit ← fitExponential M time rates
  let hypFit ← fitHyperbolic M time rates
  return { best := if hypFit.rSquared > expFit.rSquared + 5 / 1000 then hypFit else expFit
           all := [expFit, hypFit] }

/-! ## Forecast generator, forecast.ts -/

/-- `ForecastPoint` of forecast.ts. -/
structure ForecastPoint where
  month : ℚ
  rate : ℚ
  cumulative : ℚ
deriving DecidableEq, Repr

/-- `ForecastResult` of forecast.ts. -/
structure ForecastResult where
  points : List ForecastPoint
  eurAtEnd : ℚ
deriving DecidableEq, Repr

/-- The `for (m = 0; m <= months; m++)` loop of `generateForecast`, with
the number of remaining admissible month offsets as fuel (`fuel = 0`
corresponds to `m > months`).  Returns the emitted points and the final
value of `cumulative`. -/
def forecastLoop (M : JsMath) (model : DeclineModel) (economicLimit startMonth : ℚ) :
    Nat → Nat → ℚ → List ForecastPoint × ℚ
  | 0, _, cum => ([], cum)
  | fuel + 1, m, cum =>
    let t := startMonth + (m : ℚ)
    let rate := predictRate M model t
    if rate < economicLimit ∧ 0 < m then ([], cum)
    else
      let cum' := if 0 < m then cum + (predictRate M model (t - 1) + rate) / 2 else cum
      let rest := forecastLoop M model economicLimit startMonth fuel (m + 1) cum'
      (⟨t, rate, cum'⟩ :: rest.1, rest.2)

/-- `generateForecast` of forecast.ts (defaults `economicLimit = 1`,
`startMonth = 0` are supplied by callers here).  `months` is a `Nat`
since the loop runs over the integer offsets `m = 0 .. months`. -/
def generateForecast (M : JsMath) (model : DeclineModel) (months : Nat)
    (economicLimit startMonth : ℚ) : ForecastResult :=
  let r := forecastLoop M model economicLimit startMonth (months + 1) 0 0
  { points := r.1, eurAtEnd := r.2 }

/-! ## Parser, parser.ts

The parser works on JS strings; we model them as `List Char`.  `Date`
values built by `new Date(year, monthIndex, day)` are modelled by
`JDate`, which stores the normalised month count `ym = year*12 + month`
(so that out-of-range month indices and day-of-month overflow roll over
exactly as in JS) together with the day of month.  Comparison by
`getTime()` is the lexicographic order on `(ym, day)` (the time of day
is always midnight here), and `monthsDiff` is the difference of `ym`
values, matching `(y2-y1)*12 + (m2-m1)`. -/

/-- A normalised JS `Date` (midnight, local): `ym = getFullYear()*12 +
getMonth()`, `day = getDate()`. -/
structure JDate where
  ym : Int
  day : Int
deriving DecidableEq, Repr

/-- Gregorian leap-year rule, as implemented by JS `Date`. -/
def isLeapYear (y : Int) : Bool :=
  (y % 4 == 0 && y % 100 != 0) || y % 400 == 0

/-- Days in the month with absolute month count `ym`. -/
def daysInMonth (ym : Int) : Int :=
  let m := ym.emod 12
  if m == 1 then (if isLeapYear (ym.fdiv 12) then 29 else 28)
  else if m == 3 || m == 5 || m == 8 || m == 10 then 30
  else 31

/-- Day-of-month normalisation: carry an overflowing or underflowing day
into neighbouring months, as `new Date(y, m, d)` does.  Fuel bounds the number
of carries; parsed day fields are at most two digits, so 12 always
suffices. -/
def normDay : Nat → Int → Int → JDate
  | 0, ym, d => ⟨ym, d⟩
  | fuel + 1, ym, d =>
    if d < 1 then normDay fuel (ym - 1) (d + daysInMonth (ym - 1))
    else if d > daysInMonth ym then normDay fuel (ym + 1) (d - daysInMonth ym)
    else ⟨ym, d⟩

/-- `new Date(year, monthIndex, day)`: JS maps two-digit years to
`1900 + year` and rolls over out-of-range month and day fields. -/
def mkDate (year monthIndex day : Int) : JDate :=
  let y := if 0 ≤ year ∧ year ≤ 99 then year + 1900 else year
  normDay 12 (y * 12 + monthIndex) day

/-- `monthsDiff` of parser.ts:
`(b.getFullYear() - a.getFullYear())*12 + (b.getMonth() - a.getMonth())`. -/
def monthsDiff (a bb : JDate) : Int := bb.ym - a.ym

/-- The JS `Date` ordering used by the sort comparator
`a.getTime() - b.getTime()`. -/
def dateLe (a bb : JDate) : Prop := a.ym < bb.ym ∨ (a.ym = bb.ym ∧ a.day ≤ bb.day)

instance : DecidableRel dateLe := fun a bb => by
  unfold dateLe; infer_instance

/-- JS whitespace accepted by `String.prototype.trim` and `parseFloat`
(ASCII whitespace plus NBSP and BOM; other exotic Unicode spaces are
outside this model). -/
def jsWhitespace (c : Char) : Bool :=
  c == ' ' || c == '\t' || c == '\n' || c == '\r' ||
    c.toNat == 11 || c.toNat == 12 || c.toNat == 160 || c.toNat == 65279

/-- `String.prototype.trim`. -/
def jsTrim (l : List Char) : List Char :=
  ((l.dropWhile jsWhitespace).reverse.dropWhile jsWhitespace).reverse

/-- `split(/\r?\n/)`: a lone `\r` is not a separator. -/
def splitLinesJs : List Char → List (List Char)
  | [] => [[]]
  | '\r' :: '\n' :: rest => [] :: splitLinesJs rest
  | '\n' :: rest => [] :: splitLinesJs rest
  | c :: rest =>
    match splitLinesJs rest with
    | [] => [[c]]
    | l :: ls => (c :: l) :: ls

/-- Separators of `split(/[,\t]+/)`. -/
def isSep (c : Char) : Bool := c == ',' || c == '\t'

/-- `split(/[,\t]+/)`: runs of commas/tabs collapse into one separator;
leading and trailing separators produce empty fields. -/
def splitFieldsJs : List Char → List (List Char)
  | [] => [[]]
  | c :: rest =>
    let tail := splitFieldsJs rest
    if isSep c then
      match rest with
      | r :: _ => if isSep r then tail else [] :: tail
      | [] => [] :: tail
    else
      match tail with
      | [] => [[c]]
      | l :: ls => (c :: l) :: ls

/-- Case-insensitive prefix test against a lowercase pattern. -/
def startsWithLower : List Char → List Char → Bool
  | [], _ => true
  | _ :: _, [] => false
  | p :: ps, c :: cs => (c.toLower == p) && startsWithLower ps cs

/-- The header test `/^(date|month|time)/i` of parser.ts. -/
def isHeaderLine (l : List Char) : Bool :=
  startsWithLower "date".data l || startsWithLower "month".data l ||
    startsWithLower "time".data l

/-- Decimal value of a digit run. -/
def natOfDigits (ds : List Char) : Nat :=
  ds.foldl (fun a c => a * 10 + (c.toNat - 48)) 0

/-- The `/^(\d{4})-(\d{1,2})(?:-(\d{1,2}))?$/` branch of `parseDate`. -/
def parseDateIso (s : List Char) : Option JDate :=
  let (y, r1) := s.span Char.isDigit
  if y.length == 4 then
    match r1 with
    | '-' :: r2 =>
      let (mo, r3) := r2.span Char.isDigit
      if mo.length == 1 || mo.length == 2 then
        match r3 with
        | [] => some (mkDate (natOfDigits y) ((natOfDigits mo : Int) - 1) 1)
        | '-' :: r4 =>
          let (d, r5) := r4.span Char.isDigit
          if (d.length == 1 || d.length == 2) && r5.isEmpty then
            some (mkDate (natOfDigits y) ((natOfDigits mo : Int) - 1) (natOfDigits d))
          else none
        | _ => none
      else none
    | _ => none
  else none

/-- The `/^(\d{1,2})\/(\d{1,2})\/(\d{4})$/` branch of `parseDate`. -/
def parseDateUs (s : List Char) : Option JDate :=
  let (mo, r1) := s.span Char.isDigit
  if mo.length == 1 || mo.length == 2 then
    match r1 with
    | '/' :: r2 =>
      let (d, r3) := r2.span Char.isDigit
      if d.length == 1 || d.length == 2 then
        match r3 with
        | '/' :: r4 =>
          let (y, r5) := r4.span Char.isDigit
          if y.length == 4 && r5.isEmpty then
            some (mkDate (natOfDigits y) ((natOfDigits mo : Int) - 1) (natOfDigits d))
          else none
        | _ => none
      else none
    | _ => none
  else none

/-- The `/^(\d{4})\/(\d{1,2})(?:\/(\d{1,2}))?$/` branch of `parseDate`. -/
def parseDateSlashIso (s : List Char) : Option JDate :=
  let (y, r1) := s.span Char.isDigit
  if y.length == 4 then
    match r1 with
    | '/' :: r2 =>
      let (mo, r3) := r2.span Char.isDigit
      if mo.length == 1 || mo.length == 2 then
        match r3 with
        | [] => some (mkDate (natOfDigits y) ((natOfDigits mo : Int) - 1) 1)
        | '/' :: r4 =>
          let (d, r5) := r4.span Char.isDigit
          if (d.length == 1 || d.length == 2) && r5.isEmpty then
            some (mkDate (natOfDigits y) ((natOfDigits mo : Int) - 1) (natOfDigits d))
          else none
        | _ => none
      else none
    | _ => none
  else none

/-- `parseDate` of parser.ts: the three accepted formats, tried in order. -/
def parseDate (s : List Char) : Option JDate :=
  match parseDateIso s with
  | some d => some d
  | none =>
    match parseDateUs s with
    | some d => some d
    | none => parseDateSlashIso s

/-- JS `parseFloat`: longest valid decimal-literal prefix after leading
whitespace, `NaN` (here `none`) when no digit is found.  The JS literal
`Infinity` has no rational value and is outside this model (treated as
unparsable). -/
def jsParseFloat (s : List Char) : Option ℚ :=
  let s1 := s.dropWhile jsWhitespace
  let sgn : ℚ × List Char :=
    match s1 with
    | '-' :: r => (-1, r)
    | '+' :: r => (1, r)
    | _ => (1, s1)
  let (ip, r1) := sgn.2.span Char.isDigit
  let fpr : List Char × List Char :=
    match r1 with
    | '.' :: r => r.span Char.isDigit
    | _ => ([], r1)
  let fp := fpr.1
  if ip.isEmpty && fp.isEmpty then none
  else
    let mant : ℚ := sgn.1 * (natOfDigits (ip ++ fp) : ℚ) / 10 ^ fp.length
    let e : Int :=
      match fpr.2 with
      | c :: r3 =>
        if c == 'e' || c == 'E' then
          let esgn : Int × List Char :=
            match r3 with
            | '-' :: rr => (-1, rr)
            | '+' :: rr => (1, rr)
            | _ => (1, r3)
          let ed := (esgn.2.span Char.isDigit).1
          if ed.isEmpty then 0 else esgn.1 * (natOfDigits ed : Int)
        else 0
      | [] => 0
    some (mant * 10 ^ e)

/-- `ProductionRecord` of parser.ts. -/
structure ProductionRecord where
  date : JDate
  rate : ℚ
deriving DecidableEq, Repr

/-- One iteration of the parsing loop of `parseProductionData`: header,
short, bad-date, bad-rate and negative-rate lines yield no record. -/
def lineToRecord (line : List Char) : Option ProductionRecord :=
  let trimmed := jsTrim line
  if trimmed.isEmpty then none
  else if isHeaderLine trimmed then none
  else
    match splitFieldsJs trimmed with
    | d :: r :: _ =>
      match parseDate (jsTrim d), jsParseFloat (jsTrim r) with
      | some date, some rate => if rate < 0 then none else some ⟨date, rate⟩
      | some _, none => none
      | none, _ => none
    | _ => none

/-- `ParsedProduction` of parser.ts (`time` entries are whole months,
hence `Int`). -/
structure ParsedProduction where
  records : List ProductionRecord
  time : List Int
  rates : List ℚ
deriving DecidableEq, Repr

/-- The sort comparator `(a, b) => a.date.getTime() - b.date.getTime()`. -/
def recLe (a bb : ProductionRecord) : Prop := dateLe a.date bb.date

instance : DecidableRel recLe := fun a bb => by
  unfold recLe; infer_instance

instance : IsTotal ProductionRecord recLe where
  total a bb := by
    unfold recLe dateLe
    rcases lt_trichotomy a.date.ym bb.date.ym with h | h | h
    · exact Or.inl (Or.inl h)
    · rcases le_total a.date.day bb.date.day with hd | hd
      · exact Or.inl (Or.inr ⟨h, hd⟩)
      · exact Or.inr (Or.inr ⟨h.symm, hd⟩)
    · exact Or.inr (Or.inl h)

instance : IsTrans ProductionRecord recLe where
  trans a bb c hab hbc := by
    unfold recLe dateLe at *
    rcases hab with h1 | ⟨h1, d1⟩ <;> rcases hbc with h2 | ⟨h2, d2⟩
    · exact Or.inl (h1.trans h2)
    · exact Or.inl (h2 ▸ h1)
    · exact Or.inl (h1 ▸ h2)
    · exact Or.inr ⟨h1.trans h2, d1.trans d2⟩

/-- The record list accumulated by the line loop of
`parseProductionData` (before the emptiness check and the sort). -/
def recordsOfInput (input : String) : List ProductionRecord :=
  (splitLinesJs (jsTrim input.data)).filterMap lineToRecord

/-- The `ParsedProduction` assembled from the date-sorted record list:
`time[i]` is the whole-month difference from the first (earliest)
record's date. -/
def assembleParsed (sorted : List ProductionRecord) : ParsedProduction :=
  { records := sorted
    time := sorted.map fun r => monthsDiff ((sorted.headD ⟨⟨0, 1⟩, 0⟩).date) r.date
    rates := sorted.map fun r => r.rate }

/-- `parseProductionData` of parser.ts.  JS `Array.prototype.sort` is a
stable sort, which `List.insertionSort` also is. -/
def parseProductionData (input : String) : Except EngineError ParsedProduction :=
  if (recordsOfInput input).isEmpty then .error .noValidRecords
  else .ok (assembleParsed (List.insertionSort recLe (recordsOfInput input)))

/-! ## Exporter, export.ts -/

/-- Floor of a rational, written explicitly for kernel evaluation. -/
def ratFloor (x : ℚ) : Int := x.num.fdiv (x.den : Int)

/-- Left-pad a digit string with zeros to length `n`. -/
def padZeros (s : List Char) (n : Nat) : List Char :=
  List.replicate (n - s.length) '0' ++ s

/-- `Number.prototype.toFixed` for a non-negative exact rational:
round to the nearest multiple of `10^-d`, ties towards the larger value
(ECMA-262 Number::toFixed picks the larger candidate on a tie). -/
def toFixedPos (x : ℚ) (d : Nat) : String :=
  let n : Nat := (ratFloor (x * 10 ^ d + 1 / 2)).toNat
  if d == 0 then toString n
  else
    toString (n / 10 ^ d) ++ "." ++ String.mk (padZeros (toString (n % 10 ^ d)).data d)

/-- `Number.prototype.toFixed` on exact rationals (sign extracted first,
as in ECMA-262, so negative values rounding to zero keep their sign). -/
def toFixed (x : ℚ) (d : Nat) : String :=
  if x < 0 then "-" ++ toFixedPos (-x) d else toFixedPos x d

/-- The `b-factor` cell: `m.type === 'hyperbolic' ? m.b.toFixed(4) : '0'`. -/
def bCell : DeclineModel → String
  | .hyperbolic _ _ b => toFixed b 4
  | .exponential _ _ => "0"

/-- The `EUR` cell: `Number.isFinite(fit.eur) ? fit.eur.toFixed(2) : 'N/A'`. -/
def eurCell (e : WithTop ℚ) : String :=
  match e with
  | Option.none => "N/A"
  | Option.some x => toFixed x 2

/-- `exportResultsCsv` of export.ts: build the row list, join with `\n`. -/
def exportResultsCsv (fit : FitResult) : String :=
  let m := fit.model
  let ls := ["Parameter,Value",
    "Model Type," ++ m.typeStr,
    "qi (initial rate)," ++ toFixed m.qi 2,
    "Di (decline rate)," ++ toFixed m.Di 6,
    "b-factor," ++ bCell m,
    "R²," ++ toFixed fit.rSquared 6,
    "AIC," ++ toFixed fit.aic 2,
    "EUR," ++ eurCell fit.eur]
  String.intercalate "\n" ls

/-- The fixed `Parameter,Value` table of §4.6/§6 of the specification,
written from the spec's words: model type, `qi` at 2 decimals, `Di` at 6,
`b` at 4 (the literal `0` for an exponential model), R² at 6, AIC at 2,
and EUR at 2 decimals or the literal `N/A` when undefined/infinite. -/
def specResultsLines (fit : FitResult) : List String :=
  ["Parameter,Value",
   "Model Type," ++ fit.model.typeStr,
   "qi (initial rate)," ++ toFixed fit.model.qi 2,
   "Di (decline rate)," ++ toFixed fit.model.Di 6,
   "b-factor," ++ (match fit.model with
     | .hyperbolic _ _ b => toFixed b 4
     | .exponential _ _ => "0"),
   "R²," ++ toFixed fit.rSquared 6,
   "AIC," ++ toFixed fit.aic 2,
   "EUR," ++ (match fit.eur with
     | Option.some x => toFixed x 2
     | Option.none => "N/A")]

/-! ## Concrete instances used by witnesses and counterexamples

The `JsMath` stand-ins below replace `Math.exp`/`Math.log`/`Math.pow` by
simple rational functions so that engine runs can be evaluated exactly.
`fun x e => 1 + e * (x - 1)` is the first-order expansion of `pow` about
base 1 (it agrees with real `pow` at base 1 and in slope); the constant
stand-ins pick the function value actually reached in the run. -/

/-- Extract the value of a successful fit (dummy default otherwise). -/
def okFit (r : Except EngineError FitResult) : FitResult :=
  match r with
  | .ok fr => fr
  | .error _ => ⟨.exponential 0 0, 0, 0, 0⟩

/-- Extract the value of a successful parse (dummy default otherwise). -/
def okParsed (r : Except EngineError ParsedProduction) : ParsedProduction :=
  match r with
  | .ok p => p
  | .error _ => ⟨[], [], []⟩

/-- Math stand-in for witness runs: `exp = 2`, `log = 0`, first-order `pow`. -/
def mathLin : JsMath := ⟨fun _ => 2, fun _ => 0, fun x e => 1 + e * (x - 1)⟩

/-- Math stand-in for the negative-EUR counterexample: as `mathLin` but
with `exp = 1/2`, so the seeded `qi` stays below the economic limit 1. -/
def mathCex : JsMath := ⟨fun _ => 1 / 2, fun _ => 0, fun x e => 1 + e * (x - 1)⟩

/-- Math stand-in for the `b`-clamp counterexample (`pow x e = e`). -/
def mathB : JsMath := ⟨fun _ => 1 / 2, fun _ => 0, fun _ e => e⟩

/-- Constant math stand-in for the forecast witness. -/
def mathOne : JsMath := ⟨fun _ => 1, fun _ => 0, fun _ _ => 1⟩

/-- Time offsets shared by the concrete fitter runs. -/
def timeW : List ℚ := [0, 1, 2]

/-- Rates for witness runs: an exact fit of the `mathLin` seed model
`(qi, Di, b) = (2, 1/1000, 1/2)`, so every LM candidate is rejected. -/
def ratesW : List ℚ := [2, 2000 / 1001, 1000 / 501]

/-- Rates for the negative-EUR counterexample: an exact fit of the
`mathCex` seed model `(1/2, 1/1000, 1/2)`; the `qi ≥ 1` clamp makes
every LM candidate worse, so the loop keeps `qi = 1/2 < 1`. -/
def ratesCex : List ℚ := [1 / 2, 500 / 1001, 250 / 501]

/-- Rates for the `b`-clamp counterexample: the constant chosen so that
the first LM update is accepted with `b + δ₂ > 0.99` (clamped to exactly
`0.99`) and fits the data perfectly, freezing the loop afterwards. -/
def ratesB : List ℚ := [451341 / 44500, 451341 / 44500, 451341 / 44500]

/-! ## Helper lemmas -/

/-- The clamps of `lmClamp` bound `Di` below by `1e-6` and `b` into
`[0.01, 0.99]`. -/
theorem lmClamp_bounds (p d : ℚ × ℚ × ℚ) :
    1 / 10 ^ 6 ≤ (lmClamp p d).2.1 ∧ 1 / 100 ≤ (lmClamp p d).2.2 ∧
    (lmClamp p d).2.2 ≤ 99 / 100 :=
  ⟨le_max_right _ _, le_max_left _ _, max_le (by norm_num) (min_le_left _ _)⟩

/-- Unfolding equation of `lmLoop` for a positive iteration count. -/
theorem lmLoop_succ (M : JsMath) (t q : List ℚ) (n : Nat) (lam : ℚ) (p : ℚ × ℚ × ℚ) :
    lmLoop M t q (n + 1) lam p =
      match lmDelta M t q lam p with
      | none => p
      | some d =>
        if lmSSE M t q (lmClamp p d) < lmSSE M t q p then
          if (lmSSE M t q p - lmSSE M t q (lmClamp p d)) / (lmSSE M t q p + 1 / 10 ^ 15)
              < 1 / 10 ^ 10 then lmClamp p d
          else lmLoop M t q n (lam / 2) (lmClamp p d)
        else lmLoop M t q n (lam * 5) p := rfl

/-- `lmLoop` when the linear solver bails out: break with current state. -/
theorem lmLoop_succ_none {M : JsMath} {t q : List ℚ} {n : Nat} {lam : ℚ}
    {p : ℚ × ℚ × ℚ} (hD : lmDelta M t q lam p = none) :
    lmLoop M t q (n + 1) lam p = p := by
  rw [lmLoop_succ, hD]

/-- `lmLoop` when the solver produces an update `d`. -/
theorem lmLoop_succ_some {M : JsMath} {t q : List ℚ} {n : Nat} {lam : ℚ}
    {p d : ℚ × ℚ × ℚ} (hD : lmDelta M t q lam p = some d) :
    lmLoop M t q (n + 1) lam p =
      if lmSSE M t q (lmClamp p d) < lmSSE M t q p then
        if (lmSSE M t q p - lmSSE M t q (lmClamp p d)) / (lmSSE M t q p + 1 / 10 ^ 15)
            < 1 / 10 ^ 10 then lmClamp p d
        else lmLoop M t q n (lam / 2) (lmClamp p d)
      else lmLoop M t q n (lam * 5) p := by
  rw [lmLoop_succ, hD]

/-- Accepted LM updates are clamped, so `Di ≥ 1e-6` and `b ∈ [0.01, 0.99]`
are loop invariants of `lmLoop`. -/
theorem lmLoop_invariant (M : JsMath) (t q : List ℚ) :
    ∀ (fuel : Nat) (lam : ℚ) (p : ℚ × ℚ × ℚ),
      1 / 10 ^ 6 ≤ p.2.1 → 1 / 100 ≤ p.2.2 → p.2.2 ≤ 99 / 100 →
      1 / 10 ^ 6 ≤ (lmLoop M t q fuel lam p).2.1 ∧
      1 / 100 ≤ (lmLoop M t q fuel lam p).2.2 ∧
      (lmLoop M t q fuel lam p).2.2 ≤ 99 / 100 := by
  intro fuel
  induction fuel with
  | zero =>
    intro lam p h1 h2 h3
    exact ⟨h1, h2, h3⟩
  | succ n ih =>
    intro lam p h1 h2 h3
    cases hD : lmDelta M t q lam p with
    | none => rw [lmLoop_succ_none hD]; exact ⟨h1, h2, h3⟩
    | some d =>
      rw [lmLoop_succ_some hD]
      by_cases hAcc : lmSSE M t q (lmClamp p d) < lmSSE M t q p
      · rw [if_pos hAcc]
        by_cases hBreak : (lmSSE M t q p - lmSSE M t q (lmClamp p d)) /
            (lmSSE M t q p + 1 / 10 ^ 15) < 1 / 10 ^ 10
        · rw [if_pos hBreak]
          exact lmClamp_bounds p d
        · rw [if_neg hBreak]
          exact ih _ _ (lmClamp_bounds p d).1 (lmClamp_bounds p d).2.1
            (lmClamp_bounds p d).2.2
      · rw [if_neg hAcc]
        exact ih _ _ h1 h2 h3

/-- Shape of a successful exponential fit. -/
theorem fitExponential_ok {M : JsMath} {time rates : List ℚ} {fr : FitResult}
    (h : fitExponential M time rates = .ok fr) :
    ¬ (validPairs time rates).length < 2 ∧
    ¬ |regDenom (validPairs time rates)| < 1 / 10 ^ 15 ∧
    fr = expFitResult M (validPairs time rates) := by
  unfold fitExponential at h
  split at h
  · exact absurd h (by simp)
  · split at h
    · exact absurd h (by simp)
    · next h1 h2 => exact ⟨h1, h2, ((Except.ok.injEq _ _).mp h).symm⟩

/-- Shape of a successful hyperbolic fit. -/
theorem fitHyperbolic_ok {M : JsMath} {time rates : List ℚ} {fr : FitResult}
    (h : fitHyperbolic M time rates = .ok fr) :
    ¬ (validPairs time rates).length < 3 ∧
    ∃ e, fitExponential M time rates = .ok e ∧
      fr = hypFitResult M (validPairs time rates) e := by
  unfold fitHyperbolic at h
  split at h
  · exact absurd h (by simp)
  · next h3 =>
    cases hE : fitExponential M time rates with
    | error err => rw [hE] at h; exact absurd h (by simp [Except.map])
    | ok e =>
      rw [hE] at h
      simp only [Except.map, Except.ok.injEq] at h
      exact ⟨h3, e, rfl, h.symm⟩

/-- The model of a successful exponential fit is the exponential variant,
and its `eur` follows the `Di > 0 ? qi/Di : Infinity` rule. -/
theorem expFitResult_props (M : JsMath) (valid : List (ℚ × ℚ)) :
    (∃ qi Di, (expFitResult M valid).model = .exponential qi Di) ∧
    (0 < (expFitResult M valid).model.Di →
      (expFitResult M valid).eur =
        (((expFitResult M valid).model.qi / (expFitResult M valid).model.Di : ℚ) : WithTop ℚ)) ∧
    ((expFitResult M valid).model.Di ≤ 0 → (expFitResult M valid).eur = ⊤) := by
  unfold expFitResult
  refine ⟨⟨_, _, rfl⟩, ?_, ?_⟩ <;> intro hDi <;>
    simp only [DeclineModel.Di, DeclineModel.qi] at *
  · rw [if_pos hDi]
  · rw [if_neg (not_lt.mpr hDi)]

/-- Shape, parameter bounds and closed-form `eur` of the hyperbolic fit
result: the final `b` lies in `[0.01, 0.99]` and `Di ≥ 1e-6`, hence the
`b < 1 && Di > 0` test succeeds and the Infinity branch is not taken. -/
theorem hypFitResult_props (M : JsMath) (valid : List (ℚ × ℚ)) (e : FitResult) :
    ∃ qi Di b, (hypFitResult M valid e).model = .hyperbolic qi Di b ∧
      1 / 10 ^ 6 ≤ Di ∧ 1 / 100 ≤ b ∧ b ≤ 99 / 100 ∧
      (hypFitResult M valid e).eur =
        ((M.pow qi b / ((1 - b) * Di) * (M.pow qi (1 - b) - M.pow 1 (1 - b)) : ℚ) : WithTop ℚ) := by
  have inv := lmLoop_invariant M (valid.map Prod.fst) (valid.map Prod.snd) 200 (1 / 100)
    (e.model.qi, max e.model.Di (1 / 1000), 1 / 2)
    (le_trans (by norm_num) (le_max_right _ _)) (by norm_num) (by norm_num)
  unfold hypFitResult hypAssemble
  refine ⟨_, _, _, rfl, inv.1, inv.2.1, inv.2.2, ?_⟩
  rw [if_pos ⟨lt_of_le_of_lt inv.2.2 (by norm_num), lt_of_lt_of_le (by norm_num) inv.1⟩]

/-- A successful exponential fit carries an exponential-variant model
whose `qi` is a value of `Math.exp`. -/
theorem fitExponential_model {M : JsMath} {time rates : List ℚ} {fr : FitResult}
    (h : fitExponential M time rates = .ok fr) :
    (∃ qi Di, fr.model = .exponential qi Di) ∧ (∃ x, fr.model.qi = M.exp x) := by
  obtain ⟨-, -, rfl⟩ := fitExponential_ok h
  exact ⟨(expFitResult_props M _).1, ⟨_, rfl⟩⟩

/-- A successful hyperbolic fit carries a hyperbolic-variant model. -/
theorem fitHyperbolic_model {M : JsMath} {time rates : List ℚ} {fr : FitResult}
    (h : fitHyperbolic M time rates = .ok fr) :
    ∃ qi Di b, fr.model = .hyperbolic qi Di b := by
  obtain ⟨-, e, -, rfl⟩ := fitHyperbolic_ok h
  obtain ⟨qi, Di, b, hm, -⟩ := hypFitResult_props M _ e
  exact ⟨qi, Di, b, hm⟩

/-- Combined facts about a successful exponential fit: the `eur` rule. -/
theorem fitExponential_eur {M : JsMath} {time rates : List ℚ} {fr : FitResult}
    (h : fitExponential M time rates = .ok fr) :
    (0 < fr.model.Di →
      fr.eur = ((fr.model.qi / fr.model.Di : ℚ) : WithTop ℚ)) ∧
    (fr.model.Di ≤ 0 → fr.eur = ⊤) := by
  obtain ⟨-, -, rfl⟩ := fitExponential_ok h
  exact ⟨(expFitResult_props M _).2.1, (expFitResult_props M _).2.2⟩

/-- Combined facts about a successful hyperbolic fit: model shape,
parameter bounds and the closed-form `eur`. -/
theorem fitHyperbolic_props {M : JsMath} {time rates : List ℚ} {fr : FitResult}
    (h : fitHyperbolic M time rates = .ok fr) :
    ∃ qi Di b, fr.model = .hyperbolic qi Di b ∧
      1 / 10 ^ 6 ≤ Di ∧ 1 / 100 ≤ b ∧ b ≤ 99 / 100 ∧
      fr.eur = ((M.pow qi b / ((1 - b) * Di) *
        (M.pow qi (1 - b) - M.pow 1 (1 - b)) : ℚ) : WithTop ℚ) := by
  obtain ⟨-, e, -, rfl⟩ := fitHyperbolic_ok h
  exact hypFitResult_props M _ e

/-! ## Claim theorems -/

/-- C1: for every input on which both fitters succeed, `selectBestFit`
returns the hyperbolic result as `best` if and only if its R² exceeds
the exponential R² by strictly more than 0.005, and the exponential
result otherwise; `all` is `[exponential, hyperbolic]` in that order. -/
theorem spec_c1 (M : JsMath) (time rates : List ℚ) (e h : FitResult)
    (he : fitExponential M time rates = .ok e)
    (hh : fitHyperbolic M time rates = .ok h) :
    ∃ r, selectBestFit M time rates = .ok r ∧
      r.all = [e, h] ∧
      (r.best = h ↔ h.rSquared > e.rSquared + 5 / 1000) ∧
      (r.best = e ↔ ¬ h.rSquared > e.rSquared + 5 / 1000) := by
  have hne : e ≠ h := by
    intro hEq
    obtain ⟨⟨qiE, DiE, hmE⟩, -⟩ := fitExponential_model he
    obtain ⟨qiH, DiH, bH, hmH⟩ := fitHyperbolic_model hh
    rw [hEq, hmH] at hmE
    exact DeclineModel.noConfusion hmE
  have hrun : selectBestFit M time rates =
      .ok ⟨if h.rSquared > e.rSquared + 5 / 1000 then h else e, [e, h]⟩ := by
    unfold selectBestFit
    rw [he, hh]
    rfl
  refine ⟨_, hrun, rfl, ?_, ?_⟩
  · by_cases hc : h.rSquared > e.rSquared + 5 / 1000
    · simp [hc]
    · simp only [if_neg hc]
      exact ⟨fun hEq => absurd hEq hne, fun hcc => absurd hcc hc⟩
  · by_cases hc : h.rSquared > e.rSquared + 5 / 1000
    · simp only [if_pos hc]
      exact ⟨fun hEq => absurd hEq.symm hne, fun hcc => absurd hc hcc⟩
    · simp [hc]

/-- C2: a successful exponential fit has `eur = qi/Di` whenever
`Di > 0`, and `eur = Infinity` (the undefined sentinel) when `Di ≤ 0`. -/
theorem spec_c2 (M : JsMath) (time rates : List ℚ) (fr : FitResult)
    (h : fitExponential M time rates = .ok fr) :
    (0 < fr.model.Di →
      fr.eur = ((fr.model.qi / fr.model.Di : ℚ) : WithTop ℚ)) ∧
    (fr.model.Di ≤ 0 → fr.eur = ⊤) :=
  fitExponential_eur h

/-- C3: `fitExponential` fails with the insufficient-data error exactly
when fewer than 2 input points have positive rate, and with the
degenerate-data error exactly when enough points exist but the
time-variance term `n*Σt² - (Σt)²` is numerically zero (`|·| < 1e-15`);
`fitHyperbolic` fails with its insufficient-data error whenever fewer
than 3 points have positive rate. -/
theorem spec_c3 (M : JsMath) (time rates : List ℚ) :
    (fitExponential M time rates = .error (.insufficientData 2) ↔
      (validPairs time rates).length < 2) ∧
    (fitExponential M time rates = .error .degenerateData ↔
      (2 ≤ (validPairs time rates).length ∧
        |regDenom (validPairs time rates)| < 1 / 10 ^ 15)) ∧
    ((validPairs time rates).length < 3 →
      fitHyperbolic M time rates = .error (.insufficientData 3)) := by
  refine ⟨⟨fun hE => ?_, fun hlen => ?_⟩, ⟨fun hE => ?_, fun hpre => ?_⟩, fun h3 => ?_⟩
  · by_contra hlen
    unfold fitExponential at hE
    rw [if_neg hlen] at hE
    by_cases h2 : |regDenom (validPairs time rates)| < 1 / 10 ^ 15
    · rw [if_pos h2] at hE
      simp only [Except.error.injEq] at hE
      exact EngineError.noConfusion hE
    · rw [if_neg h2] at hE
      exact Except.noConfusion hE
  · unfold fitExponential
    rw [if_pos hlen]
  · unfold fitExponential at hE
    by_cases h1 : (validPairs time rates).length < 2
    · rw [if_pos h1] at hE
      simp only [Except.error.injEq] at hE
      exact EngineError.noConfusion hE
    · rw [if_neg h1] at hE
      by_cases h2 : |regDenom (validPairs time rates)| < 1 / 10 ^ 15
      · exact ⟨Nat.not_lt.mp h1, h2⟩
      · rw [if_neg h2] at hE
        exact Except.noConfusion hE
  · unfold fitExponential
    rw [if_neg (Nat.not_lt.mpr hpre.1), if_pos hpre.2]
  · unfold fitHyperbolic
    rw [if_pos h3]

/-- C10: a successful hyperbolic fit has `Di ≥ 1e-6` and `b ≤ 0.99`,
so the guard `b < 1 && Di > 0` of the EUR computation always holds, the
closed-form expression is used and the Infinity branch is unreachable. -/
theorem spec_c10 (M : JsMath) (time rates : List ℚ) (fr : FitResult)
    (h : fitHyperbolic M time rates = .ok fr) :
    ∃ qi Di b, fr.model = .hyperbolic qi Di b ∧
      1 / 10 ^ 6 ≤ Di ∧ b ≤ 99 / 100 ∧ b < 1 ∧ 0 < Di ∧ fr.eur ≠ ⊤ ∧
      fr.eur = ((M.pow qi b / ((1 - b) * Di) *
        (M.pow qi (1 - b) - M.pow 1 (1 - b)) : ℚ) : WithTop ℚ) := by
  obtain ⟨qi, Di, b, hm, hDi, hb1, hb2, heur⟩ := fitHyperbolic_props h
  refine ⟨qi, Di, b, hm, hDi, hb2, lt_of_le_of_lt hb2 (by norm_num),
    lt_of_lt_of_le (by norm_num) hDi, ?_, heur⟩
  rw [heur]
  exact WithTop.coe_ne_top

/-- C8 (amended): a successful hyperbolic fit's `b` lies in the closed
interval `[0.01, 0.99]` (the clamp `max(0.01, min(0.99, b))` can land
exactly on either endpoint, so the open interval of the claim fails). -/
theorem spec_c8_amended (M : JsMath) (time rates : List ℚ) (fr : FitResult)
    (h : fitHyperbolic M time rates = .ok fr) :
    1 / 100 ≤ fr.model.b ∧ fr.model.b ≤ 99 / 100 := by
  obtain ⟨qi, Di, b, hm, hDi, hb1, hb2, -⟩ := fitHyperbolic_props h
  rw [hm]
  exact ⟨hb1, hb2⟩

/-- C7 (amended): under the sign and monotonicity facts of the real
`Math` functions (`exp ≥ 0`, `pow(1, e) = 1`, `pow(x, e) ≥ 1` for
`x ≥ 1, e ≥ 0`), a successful exponential fit always has `eur ≥ 0` or
the sentinel, and a successful hyperbolic fit does so whenever its
fitted `qi` is at least the economic-limit rate `qf = 1`.  (When the
fitted `qi` stays below 1 the closed form turns negative — see the
counterexample.) -/
theorem spec_c7_amended (M : JsMath) (hexp : ∀ x, 0 ≤ M.exp x)
    (hpow1 : ∀ e, M.pow 1 e = 1)
    (hpowGe : ∀ x e, 1 ≤ x → 0 ≤ e → 1 ≤ M.pow x e)
    (time rates : List ℚ) (fr : FitResult) :
    (fitExponential M time rates = .ok fr → 0 ≤ fr.eur) ∧
    (fitHyperbolic M time rates = .ok fr → 1 ≤ fr.model.qi → 0 ≤ fr.eur) := by
  constructor
  · intro h
    have hqi : ∃ x, fr.model.qi = M.exp x := (fitExponential_model h).2
    rcases le_or_lt fr.model.Di 0 with hDi | hDi
    · rw [(fitExponential_eur h).2 hDi]
      exact le_top
    · rw [(fitExponential_eur h).1 hDi]
      rw [show (0 : WithTop ℚ) = ((0 : ℚ) : WithTop ℚ) from rfl, WithTop.coe_le_coe]
      obtain ⟨x, hx⟩ := hqi
      exact div_nonneg (hx ▸ hexp x) hDi.le
  · intro h hq1
    obtain ⟨qi, Di, b, hm, hDi, hb1, hb2, heur⟩ := fitHyperbolic_props h
    have hqi : (1 : ℚ) ≤ qi := by rw [hm] at hq1; exact hq1
    rw [heur, show (0 : WithTop ℚ) = ((0 : ℚ) : WithTop ℚ) from rfl, WithTop.coe_le_coe]
    have hbpos : (0 : ℚ) ≤ b := le_trans (by norm_num) hb1
    have h1b : (0 : ℚ) ≤ 1 - b := by linarith
    have hfac : (0 : ℚ) ≤ M.pow qi b / ((1 - b) * Di) := by
      apply div_nonneg (le_trans zero_le_one (hpowGe qi b hqi hbpos))
      have hDi' : (0 : ℚ) < Di := lt_of_lt_of_le (by norm_num) hDi
      have h1b' : (0 : ℚ) < 1 - b := by
        have := lt_of_le_of_lt hb2 (show (99 : ℚ) / 100 < 1 by norm_num)
        linarith
      positivity
    have hbr : (0 : ℚ) ≤ M.pow qi (1 - b) - M.pow 1 (1 - b) := by
      rw [hpow1]
      have := hpowGe qi (1 - b) hqi h1b
      linarith
    exact mul_nonneg hfac hbr

/-- `predictRate` at `t = 0` returns `qi` for both model shapes
(given the `Math` facts `exp(0) = 1` and `pow(1, e) = 1`). -/
theorem predictRate_zero (M : JsMath) (model : DeclineModel)
    (hexp0 : M.exp 0 = 1) (hpow1 : ∀ e, M.pow 1 e = 1) :
    predictRate M model 0 = model.qi := by
  cases model with
  | exponential qi Di =>
    simp only [predictRate, DeclineModel.qi, mul_zero, hexp0, mul_one]
  | hyperbolic qi Di b =>
    simp only [predictRate, DeclineModel.qi]
    rw [show b * Di * 0 = 0 by ring, add_zero, if_neg (by norm_num), hpow1, div_one]

/-- `predictRate` is non-negative when `qi > 0`, `exp ≥ 0` and `pow` is
non-negative on positive bases. -/
theorem predictRate_nonneg (M : JsMath) (model : DeclineModel) (t : ℚ)
    (hq : 0 < model.qi) (hexp : ∀ x, 0 ≤ M.exp x)
    (hpow : ∀ x e, 0 < x → 0 ≤ M.pow x e) :
    0 ≤ predictRate M model t := by
  cases model with
  | exponential qi Di =>
    exact mul_nonneg (le_of_lt hq) (hexp _)
  | hyperbolic qi Di b =>
    simp only [predictRate]
    split
    · exact le_refl 0
    · next hden =>
      exact div_nonneg (le_of_lt hq) (hpow _ _ (not_le.mp hden))

/-- The emission predicate of the forecast loop, as a function of the
month offset: `m = 0` is always emitted, `m > 0` only while the
predicted rate has not dropped below the economic limit. -/
def forecastGood (M : JsMath) (model : DeclineModel) (limit start : ℚ) (m : Nat) : Bool :=
  m == 0 || ! decide (predictRate M model (start + (m : ℚ)) < limit)

/-- The forecast loop emits exactly the points of the month offsets in
`range' m fuel` up to (excluding) the first stopping offset. -/
theorem forecastLoop_map (M : JsMath) (model : DeclineModel) (limit start : ℚ) :
    ∀ (fuel m : Nat) (cum : ℚ),
      (forecastLoop M model limit start fuel m cum).1.map (fun p => (p.month, p.rate)) =
        ((List.range' m fuel).takeWhile (forecastGood M model limit start)).map
          (fun k : Nat => (start + (k : ℚ), predictRate M model (start + (k : ℚ)))) := by
  intro fuel
  induction fuel with
  | zero => intro m cum; simp [forecastLoop]
  | succ n ih =>
    intro m cum
    rw [List.range'_succ, List.takeWhile_cons]
    by_cases hc : predictRate M model (start + (m : ℚ)) < limit ∧ 0 < m
    · have hP : forecastGood M model limit start m = false := by
        unfold forecastGood
        have hm : (m == 0) = false := by
          simp [Nat.pos_iff_ne_zero.mp hc.2]
        simp [hm, hc.1]
      rw [hP]
      simp only [forecastLoop, if_pos hc]
      simp
    · have hP : forecastGood M model limit start m = true := by
        unfold forecastGood
        rcases Decidable.not_and_iff_or_not.mp hc with h | h
        · simp [h]
        · have : m = 0 := Nat.eq_zero_of_not_pos h
          simp [this]
      rw [hP]
      simp only [forecastLoop, if_neg hc, if_true, List.map_cons]
      rw [ih]

/-- C6: `generateForecast` always emits the point for `m = 0` (month
`startMonth`, cumulative 0) regardless of its rate; its emitted
months/rates are exactly the offsets `0..months` truncated at the first
`m > 0` whose predicted rate is strictly below the economic limit; and
for any model with `qi > 0`, `economicLimit = 0` and `startMonth = 0`
(with the sign facts of the real `Math` functions) exactly `months + 1`
points are produced, the first having rate `qi` and cumulative 0. -/
theorem spec_c6 (M : JsMath) (model : DeclineModel) (months : Nat)
    (limit start : ℚ) :
    (generateForecast M model months limit start).points.head? =
      some ⟨start, predictRate M model start, 0⟩ ∧
    (generateForecast M model months limit start).points.map (fun p => (p.month, p.rate)) =
      ((List.range (months + 1)).takeWhile (forecastGood M model limit start)).map
        (fun k : Nat => (start + (k : ℚ), predictRate M model (start + (k : ℚ)))) ∧
    (limit = 0 → start = 0 → 0 < model.qi → (∀ x, 0 ≤ M.exp x) →
      (∀ x e, 0 < x → 0 ≤ M.pow x e) → M.exp 0 = 1 → (∀ e, M.pow 1 e = 1) →
      (generateForecast M model months limit start).points.length = months + 1 ∧
      (generateForecast M model months limit start).points.head? =
        some ⟨0, model.qi, 0⟩) := by
  have hhead : (generateForecast M model months limit start).points.head? =
      some ⟨start, predictRate M model start, 0⟩ := by
    simp only [generateForecast, forecastLoop]
    rw [if_neg (by simp)]
    simp
  have hmap := forecastLoop_map M model limit start (months + 1) 0 0
  refine ⟨hhead, by rw [List.range_eq_range']; exact hmap, ?_⟩
  intro hl hs hq hexp hpow hexp0 hpow1
  constructor
  · have hfull : (List.range' 0 (months + 1)).takeWhile
        (forecastGood M model limit start) = List.range' 0 (months + 1) := by
      rw [List.takeWhile_eq_self_iff]
      intro k _
      unfold forecastGood
      subst hl
      have := predictRate_nonneg M model (start + (k : ℚ)) hq hexp hpow
      simp [not_lt.mpr this]
    have hlen := congrArg List.length hmap
    rw [List.length_map, List.length_map, hfull, List.length_range'] at hlen
    exact hlen
  · rw [hhead, hs, predictRate_zero M model hexp0 hpow1]

/-- `dateLe` is reflexive. -/
theorem dateLe_refl (d : JDate) : dateLe d d := Or.inr ⟨rfl, le_refl _⟩

/-- C4: `parse` fails with `ParseError` if and only if zero valid
records survive; a line with at least two fields whose date matches no
accepted format, or whose rate is unparsable or negative, is silently
discarded (contributes no record) rather than raising an error. -/
theorem spec_c4 (s : String) (line d r : List Char) (rest : List (List Char)) :
    (parseProductionData s = .error .noValidRecords ↔ recordsOfInput s = []) ∧
    (splitFieldsJs (jsTrim line) = d :: r :: rest →
      (parseDate (jsTrim d) = none ∨ jsParseFloat (jsTrim r) = none ∨
        (∃ x, jsParseFloat (jsTrim r) = some x ∧ x < 0)) →
      lineToRecord line = none) := by
  constructor
  · unfold parseProductionData
    by_cases hE : (recordsOfInput s).isEmpty
    · rw [if_pos hE]
      simp [List.isEmpty_iff.mp hE]
    · rw [if_neg hE]
      exact ⟨fun h => Except.noConfusion h,
        fun h => absurd (List.isEmpty_iff.mpr h) hE⟩
  · intro hsplit hbad
    unfold lineToRecord
    by_cases h1 : (jsTrim line).isEmpty
    · rw [if_pos h1]
    · rw [if_neg h1]
      by_cases h2 : isHeaderLine (jsTrim line)
      · rw [if_pos h2]
      · rw [if_neg h2, hsplit]
        change (match parseDate (jsTrim d), jsParseFloat (jsTrim r) with
          | some date, some rate => if rate < 0 then none else some ⟨date, rate⟩
          | some _, none => none
          | none, _ => none) = (none : Option ProductionRecord)
        rcases hbad with hd | hr | ⟨x, hx, hneg⟩
        · rw [hd]
        · cases hpd : parseDate (jsTrim d) with
          | none => rfl
          | some dd => rw [hr]
        · cases hpd : parseDate (jsTrim d) with
          | none => rfl
          | some dd =>
            rw [hx]
            change (if x < 0 then none else some (⟨dd, x⟩ : ProductionRecord)) =
              (none : Option ProductionRecord)
            rw [if_pos hneg]

/-- C5: every successfully parsed production has parallel `time`,
`rates` and `records` of equal length, records sorted ascending by date,
`time[0] = 0`, `time[i]` the whole-month difference from the earliest
(first) record's date, and non-decreasing `time`. -/
theorem spec_c5 (s : String) (p : ParsedProduction)
    (h : parseProductionData s = .ok p) :
    p.time.length = p.records.length ∧
    p.rates.length = p.records.length ∧
    p.records ≠ [] ∧
    List.Sorted recLe p.records ∧
    p.time.head? = some 0 ∧
    (∀ i : Nat, p.time.get? i = (p.records.get? i).map
      (fun rec => monthsDiff ((p.records.headD ⟨⟨0, 1⟩, 0⟩).date) rec.date)) ∧
    (∀ rec ∈ p.records, dateLe ((p.records.headD ⟨⟨0, 1⟩, 0⟩).date) rec.date) ∧
    List.Sorted (· ≤ ·) p.time := by
  unfold parseProductionData at h
  by_cases hE : (recordsOfInput s).isEmpty
  · rw [if_pos hE] at h
    exact absurd h (by simp)
  · rw [if_neg hE] at h
    have hp : p = assembleParsed (List.insertionSort recLe (recordsOfInput s)) :=
      ((Except.ok.injEq _ _).mp h).symm
    subst hp
    have hsort : List.Sorted recLe (List.insertionSort recLe (recordsOfInput s)) :=
      List.sorted_insertionSort recLe _
    have hne : List.insertionSort recLe (recordsOfInput s) ≠ [] := by
      intro h0
      have hlen := (List.perm_insertionSort recLe (recordsOfInput s)).length_eq
      rw [h0] at hlen
      exact hE (by
        rw [List.isEmpty_iff]
        exact List.length_eq_zero.mp hlen.symm)
    unfold assembleParsed
    obtain ⟨x, xs, hx⟩ := List.exists_cons_of_ne_nil hne
    refine ⟨by simp, by simp, hne, hsort, ?_, ?_, ?_, ?_⟩
    · rw [hx]
      simp [monthsDiff]
    · intro i
      simp [List.get?_map]
    · intro rec hrec
      rw [hx] at hrec hsort ⊢
      simp only [List.headD_cons]
      rcases List.mem_cons.mp hrec with hre | hre
      · rw [hre]
        exact dateLe_refl _
      · exact List.rel_of_sorted_cons hsort rec hre
    · refine List.Pairwise.map _ ?_ hsort
      intro a bb hab
      have hym : a.date.ym ≤ bb.date.ym := by
        rcases hab with h' | ⟨h', -⟩
        · exact le_of_lt h'
        · exact le_of_eq h'
      unfold monthsDiff
      omega

/-- C9: `exportResultsCsv` emits exactly the fixed 8-line
`Parameter,Value` table of the specification: header, model type, `qi`
at 2 decimals, `Di` at 6, `b` at 4 (the literal `0` for exponential),
R² at 6, AIC at 2, and EUR at 2 decimals or the literal `N/A` when the
eur value is not finite. -/
theorem spec_c9 (fit : FitResult) :
    exportResultsCsv fit = String.intercalate "\n" (specResultsLines fit) ∧
    (specResultsLines fit).length = 8 := by
  obtain ⟨model, rS, aic, eur⟩ := fit
  cases model <;> cases eur <;> exact ⟨rfl, rfl⟩

/-! ## Counterexamples and witnesses (exact kernel evaluation of runs)

Batteries marks the `Rat` field operations irreducible; evaluating the
engine inside proofs needs them reducible again. -/

attribute [local semireducible] Rat.add Rat.mul Rat.sub Rat.inv

set_option maxRecDepth 100000

/-- C7 (counterexample): on the `mathCex` stand-in — which satisfies the
sign/monotonicity facts of the real `Math` functions — and data that the
seed model fits exactly with `qi = 1/2`, every LM candidate is rejected
(the `qi ≥ 1` clamp spoils it), the fit succeeds with `qi = 1/2 < qf`,
and the closed-form EUR is negative (`-375`), refuting `eur ≥ 0`. -/
theorem spec_c7_counterexample :
    (∀ x, 0 ≤ mathCex.exp x) ∧ (∀ e, mathCex.pow 1 e = 1) ∧
    (∀ x e, 1 ≤ x → 0 ≤ e → 1 ≤ mathCex.pow x e) ∧
    fitHyperbolic mathCex timeW ratesCex =
      .ok (okFit (fitHyperbolic mathCex timeW ratesCex)) ∧
    ¬ (0 ≤ (okFit (fitHyperbolic mathCex timeW ratesCex)).eur) := by
  refine ⟨fun x => by norm_num [mathCex], fun e => by simp [mathCex],
    fun x e hx he => ?_, by rfl, by decide⟩
  simp only [mathCex]
  nlinarith

/-- C8 (counterexample): on the `mathB` stand-in and constant data
chosen so that the first LM update is accepted with `b + δ₂ > 0.99`,
the clamp lands exactly on the endpoint `b = 0.99`, which is outside
the open interval `(0.01, 0.99)` claimed by the specification. -/
theorem spec_c8_counterexample :
    fitHyperbolic mathB timeW ratesB =
      .ok (okFit (fitHyperbolic mathB timeW ratesB)) ∧
    ¬ (1 / 100 < (okFit (fitHyperbolic mathB timeW ratesB)).model.b ∧
       (okFit (fitHyperbolic mathB timeW ratesB)).model.b < 99 / 100) :=
  ⟨by rfl, by decide⟩

/-- Witness for C1: on a concrete run where both fitters succeed, the
selection facts hold. -/
theorem spec_c1_witness :
    ∃ r, selectBestFit mathLin timeW ratesW = .ok r ∧
      r.all = [okFit (fitExponential mathLin timeW ratesW),
               okFit (fitHyperbolic mathLin timeW ratesW)] ∧
      (r.best = okFit (fitHyperbolic mathLin timeW ratesW) ↔
        (okFit (fitHyperbolic mathLin timeW ratesW)).rSquared >
          (okFit (fitExponential mathLin timeW ratesW)).rSquared + 5 / 1000) ∧
      (r.best = okFit (fitExponential mathLin timeW ratesW) ↔
        ¬ (okFit (fitHyperbolic mathLin timeW ratesW)).rSquared >
          (okFit (fitExponential mathLin timeW ratesW)).rSquared + 5 / 1000) :=
  spec_c1 mathLin timeW ratesW _ _ (by rfl) (by rfl)

/-- Witness for C2: a concrete successful exponential fit with `Di = 0`
takes the Infinity branch. -/
theorem spec_c2_witness :
    (okFit (fitExponential mathLin [0, 1] [1, 1])).eur = ⊤ :=
  (spec_c2 mathLin [0, 1] [1, 1] _ (by rfl)).2 (by decide)

/-- Witness for C3: concrete inputs hit all three failure modes. -/
theorem spec_c3_witness :
    fitExponential mathLin [0, 1] [0, 5] = .error (.insufficientData 2) ∧
    fitExponential mathLin [1, 1] [5, 5] = .error .degenerateData ∧
    fitHyperbolic mathLin [0, 1, 2] [5, 5, 0] = .error (.insufficientData 3) :=
  ⟨(spec_c3 mathLin [0, 1] [0, 5]).1.mpr (by decide),
   (spec_c3 mathLin [1, 1] [5, 5]).2.1.mpr (by decide),
   (spec_c3 mathLin [0, 1, 2] [5, 5, 0]).2.2 (by decide)⟩

/-- Witness for C4: garbage input gives the error iff no records, and a
concrete negative-rate line is silently discarded. -/
theorem spec_c4_witness :
    (parseProductionData "x" = .error .noValidRecords ↔ recordsOfInput "x" = []) ∧
    lineToRecord "2020-01,-5".data = none :=
  ⟨(spec_c4 "x" [] [] [] []).1,
   (spec_c4 "x" "2020-01,-5".data "2020-01".data "-5".data []).2 (by decide)
     (Or.inr (Or.inr ⟨-5, by decide, by decide⟩))⟩

/-- Witness for C5: the invariants instantiated on a concrete
out-of-order two-line input. -/
theorem spec_c5_witness :
    (okParsed (parseProductionData "2020-02,950\n2020-01,1000")).time.length =
      (okParsed (parseProductionData "2020-02,950\n2020-01,1000")).records.length ∧
    (okParsed (parseProductionData "2020-02,950\n2020-01,1000")).rates.length =
      (okParsed (parseProductionData "2020-02,950\n2020-01,1000")).records.length ∧
    (okParsed (parseProductionData "2020-02,950\n2020-01,1000")).records ≠ [] ∧
    List.Sorted recLe (okParsed (parseProductionData "2020-02,950\n2020-01,1000")).records ∧
    (okParsed (parseProductionData "2020-02,950\n2020-01,1000")).time.head? = some 0 ∧
    (∀ i : Nat, (okParsed (parseProductionData "2020-02,950\n2020-01,1000")).time.get? i =
      ((okParsed (parseProductionData "2020-02,950\n2020-01,1000")).records.get? i).map
        (fun rec => monthsDiff
          (((okParsed (parseProductionData "2020-02,950\n2020-01,1000")).records.headD
            ⟨⟨0, 1⟩, 0⟩).date) rec.date)) ∧
    (∀ rec ∈ (okParsed (parseProductionData "2020-02,950\n2020-01,1000")).records,
      dateLe (((okParsed (parseProductionData "2020-02,950\n2020-01,1000")).records.headD
        ⟨⟨0, 1⟩, 0⟩).date) rec.date) ∧
    List.Sorted (· ≤ ·) (okParsed (parseProductionData "2020-02,950\n2020-01,1000")).time :=
  spec_c5 "2020-02,950\n2020-01,1000" _ (by rfl)

/-- Witness for C6: a three-month forecast of a concrete exponential
model with zero economic limit yields exactly 3 points, the first at
rate `qi` and cumulative 0. -/
theorem spec_c6_witness :
    (generateForecast mathOne (.exponential 2 1) 2 0 0).points.length = 2 + 1 ∧
    (generateForecast mathOne (.exponential 2 1) 2 0 0).points.head? =
      some ⟨0, 2, 0⟩ :=
  (spec_c6 mathOne (.exponential 2 1) 2 0 0).2.2 rfl rfl (by decide)
    (fun x => by norm_num [mathOne]) (fun x e hx => by norm_num [mathOne])
    (by rfl) (fun e => by rfl)

/-- Witness for C7 (amended): a concrete exponential run and a concrete
hyperbolic run with `qi = 2 ≥ 1` both give non-negative (or sentinel)
`eur` under the stand-in satisfying the `Math` facts. -/
theorem spec_c7_amended_witness :
    0 ≤ (okFit (fitExponential mathLin timeW ratesW)).eur ∧
    0 ≤ (okFit (fitHyperbolic mathLin timeW ratesW)).eur := by
  have hexp : ∀ x, 0 ≤ mathLin.exp x := fun x => by norm_num [mathLin]
  have hp1 : ∀ e, mathLin.pow 1 e = 1 := fun e => by simp [mathLin]
  have hpg : ∀ x e, 1 ≤ x → 0 ≤ e → 1 ≤ mathLin.pow x e := fun x e hx he => by
    simp only [mathLin]
    nlinarith
  exact ⟨(spec_c7_amended mathLin hexp hp1 hpg timeW ratesW _).1 (by rfl),
    (spec_c7_amended mathLin hexp hp1 hpg timeW ratesW _).2 (by rfl) (by decide)⟩

/-- Witness for C8 (amended): the closed-interval bounds on a concrete
successful hyperbolic fit. -/
theorem spec_c8_amended_witness :
    1 / 100 ≤ (okFit (fitHyperbolic mathLin timeW ratesW)).model.b ∧
    (okFit (fitHyperbolic mathLin timeW ratesW)).model.b ≤ 99 / 100 :=
  spec_c8_amended mathLin timeW ratesW _ (by rfl)

/-- Witness for C10: the bounds and closed-form EUR on a concrete
successful hyperbolic fit. -/
theorem spec_c10_witness :
    ∃ qi Di b,
      (okFit (fitHyperbolic mathLin timeW ratesW)).model = .hyperbolic qi Di b ∧
      1 / 10 ^ 6 ≤ Di ∧ b ≤ 99 / 100 ∧ b < 1 ∧ 0 < Di ∧
      (okFit (fitHyperbolic mathLin timeW ratesW)).eur ≠ ⊤ ∧
      (okFit (fitHyperbolic mathLin timeW ratesW)).eur =
        ((mathLin.pow qi b / ((1 - b) * Di) *
          (mathLin.pow qi (1 - b) - mathLin.pow 1 (1 - b)) : ℚ) : WithTop ℚ) :=
  spec_c10 mathLin timeW ratesW _ (by rfl)
